import Mathlib

/-!
Verification of the message-reconciliation engine of the tapfocus-tandem
chat application.  The definitions below are a shallow embedding of the
client-side reconciliation logic in app/(tabs)/chat.tsx (the message list,
the pending-analysis side table, and the Load / Submit / change-feed /
Backfill operations), of the anger-score post-processing in
api/_lib/analysis.ts, and of the chat-ownership logic of the submission
handler in api/chat.ts.
-/

/-- Message role, mirroring the role union type in chat.tsx. -/
inductive Role where
  | system
  | user
  | assistant
deriving DecidableEq

/-- Client-visible message, mirroring the ChatMessage type in chat.tsx.
The analysis field holds the anger score when present (analysis?.anger);
none stands for a null or absent analysis object. -/
structure ChatMessage where
  id : String
  role : Role
  content : String
  analysis : Option Int
deriving DecidableEq

/-- Row of the messages table as delivered by the store (change-feed
payload.new, load or backfill query result).  The analysis field holds the
anger number of row.analysis?.anger when it is a number, none otherwise. -/
structure Row where
  id : String
  role : Role
  content : String
  chat_id : String
  analysis : Option Int
deriving DecidableEq

/-- Projection of a store row to a client message, as done by the load and
backfill handlers in chat.tsx (id, role, content, analysis ?? null). -/
def rowToMessage (r : Row) : ChatMessage :=
  { id := r.id, role := r.role, content := r.content, analysis := r.analysis }

/-- Pinned local system entry, created in the initial useState of chat.tsx. -/
def sysMessage : ChatMessage :=
  { id := "sys", role := Role.system, content := "You are a helpful assistant.", analysis := none }

/-- Element lookup by position, mirroring JavaScript array indexing. -/
def nth {α : Type} : List α → Nat → Option α
  | [], _ => none
  | a :: _, 0 => some a
  | _ :: l, n + 1 => nth l n

/-- In-place update at a position, mirroring next[idx] = f(next[idx]); out of
range indices leave the list unchanged. -/
def setIdx {α : Type} : List α → Nat → (α → α) → List α
  | [], _, _ => []
  | a :: l, 0, f => f a :: l
  | a :: l, n + 1, f => a :: setIdx l n f

/-- Index of the first element satisfying p, mirroring Array.findIndex. -/
def findFirstIdx {α : Type} (p : α → Bool) : List α → Option Nat
  | [] => none
  | a :: l => if p a then some 0 else (findFirstIdx p l).map (· + 1)

/-- Index of the last element satisfying p, mirroring the backward for-loops
in chat.tsx that scan from the end and break at the first hit. -/
def findLastIdx {α : Type} (p : α → Bool) : List α → Option Nat
  | [] => none
  | a :: l =>
    match findLastIdx p l with
    | some i => some (i + 1)
    | none => if p a then some 0 else none

/-- Lookup in the pending-analysis side table (pendingAnalysisRef.current). -/
def lookupPending : List (String × Int) → String → Option Int
  | [], _ => none
  | (k, v) :: l, key => if k = key then some v else lookupPending l key

/-- Key assignment in the pending-analysis side table. -/
def setPending : List (String × Int) → String → Int → List (String × Int)
  | [], key, v => [(key, v)]
  | (k, w) :: l, key, v => if k = key then (k, v) :: l else (k, w) :: setPending l key v

/-- Key deletion in the pending-analysis side table. -/
def erasePending : List (String × Int) → String → List (String × Int)
  | [], _ => []
  | (k, w) :: l, key => if k = key then erasePending l key else (k, w) :: erasePending l key

/-- Ids currently displayed, in list order. -/
def idsOf (msgs : List ChatMessage) : List String :=
  msgs.map ChatMessage.id

/-- Temporary-id test from chat.tsx: an id is temporary when it does not
contain the separator character, as in !m.id.includes('-'). -/
def isTempId (s : String) : Bool :=
  !(decide ('-' ∈ s.data))

/-- Match predicate of the INSERT upgrade scan in chat.tsx: a user-role
message with a temporary id and identical content. -/
def tempUserMatch (content : String) (m : ChatMessage) : Bool :=
  decide (m.role = Role.user) && isTempId m.id && decide (m.content = content)

/-- Match predicate for locating a message by id (m.id === target). -/
def idMatch (v : String) (m : ChatMessage) : Bool :=
  decide (m.id = v)

/-- Match predicate of the UPDATE content fallback in chat.tsx: a user-role
message with identical content and no analysis yet. -/
def fallbackMatch (content : String) (m : ChatMessage) : Bool :=
  decide (m.role = Role.user) && decide (m.content = content) && decide (m.analysis = none)

/-- Reconciliation-engine state: the ordered message list, the
pending-analysis side table, the active conversation id, and the sending
flag guarding concurrent submits. -/
structure EngineState where
  messages : List ChatMessage
  pending : List (String × Int)
  chatId : Option String
  sending : Bool
deriving DecidableEq

/-- Initial client state: just the pinned system entry, an empty pending
table, and a possibly already-selected conversation. -/
def initState (cid : Option String) : EngineState :=
  { messages := [sysMessage], pending := [], chatId := cid, sending := false }

/-- INSERT branch of the change handler in chat.tsx: discard when the id is
already displayed; for a user row try to upgrade the most recent optimistic
temporary entry with identical content in place (flushing any pending
analysis for the new id); otherwise append the row without analysis. -/
def insertEvent (row : Row) (st : EngineState) : EngineState :=
  if row.id ∈ idsOf st.messages then st
  else if row.role = Role.user then
    match findLastIdx (tempUserMatch row.content) st.messages with
    | some i =>
      match lookupPending st.pending row.id with
      | some a =>
        { st with
          messages := setIdx st.messages i (fun m => { m with id := row.id, analysis := some a }),
          pending := erasePending st.pending row.id }
      | none =>
        { st with messages := setIdx st.messages i (fun m => { m with id := row.id }) }
    | none =>
      { st with
        messages := st.messages ++ [{ id := row.id, role := row.role, content := row.content, analysis := none }] }
  else
    { st with
      messages := st.messages ++ [{ id := row.id, role := row.role, content := row.content, analysis := none }] }

/-- UPDATE branch of the change handler in chat.tsx: when the row carries an
anger number and a truthy id, locate the target first by id, then by the
content fallback; if found rewrite its id and analysis, otherwise stash the
anger value in the pending side table. -/
def updateEvent (row : Row) (st : EngineState) : EngineState :=
  match row.analysis with
  | none => st
  | some anger =>
    if row.id = "" then st
    else
      match findFirstIdx (idMatch row.id) st.messages with
      | some i =>
        { st with messages := setIdx st.messages i (fun m => { m with id := row.id, analysis := some anger }) }
      | none =>
        match findLastIdx (fallbackMatch row.content) st.messages with
        | some i =>
          { st with messages := setIdx st.messages i (fun m => { m with id := row.id, analysis := some anger }) }
        | none =>
          { st with pending := setPending st.pending row.id anger }

/-- Kind of a change-feed event. -/
inductive FeedKind where
  | insert
  | update
deriving DecidableEq

/-- Change-feed entry point in chat.tsx: the subscription exists only while a
conversation is active, and rows of other conversations are discarded before
any state is touched (row.chat_id !== chatId). -/
def changeEvent (kind : FeedKind) (row : Row) (st : EngineState) : EngineState :=
  match st.chatId with
  | none => st
  | some c =>
    if row.chat_id = c then
      match kind with
      | FeedKind.insert => insertEvent row st
      | FeedKind.update => updateEvent row st
    else st

/-- Load effect of chat.tsx: a no-op without an active conversation or on a
store read error; otherwise the list is replaced wholesale by the pinned
system entry followed by the fetched history. -/
def loadMessages (result : Option (List Row)) (st : EngineState) : EngineState :=
  match st.chatId with
  | none => st
  | some _ =>
    match result with
    | none => st
    | some rows => { st with messages := sysMessage :: rows.map rowToMessage }

/-- Optimistic phase of send in chat.tsx: guard on empty input and on the
sending flag, then append the user message under its temporary id. -/
def submitStart (tempId content : String) (st : EngineState) : EngineState :=
  if content = "" ∨ st.sending then st
  else
    { st with
      messages := st.messages ++ [{ id := tempId, role := Role.user, content := content, analysis := none }],
      sending := true }

/-- Fields of the submission-endpoint JSON response read by send. -/
structure ApiData where
  userMessageId : Option String
  chatId : Option String
  assistantMessageId : Option String
  reply : Option String
deriving DecidableEq

/-- Outcome of the endpoint round trip as send observes it: thrown when
fetch rejects or res.json() fails to parse, otherwise the parsed body
together with the HTTP status, which the handler never inspects. -/
inductive SubmitOutcome where
  | thrown (ts : String)
  | parsed (status : Nat) (data : ApiData)
deriving DecidableEq

/-- Temporary-to-durable id swap of send: locate the optimistic entry by its
temporary id and rewrite only the id field in place. -/
def swapUserId (tempId durableId : String) (msgs : List ChatMessage) : List ChatMessage :=
  match findFirstIdx (idMatch tempId) msgs with
  | some i => setIdx msgs i (fun m => { m with id := durableId })
  | none => msgs

/-- Pending-analysis flush of send: when the side table holds an entry for
the durable id, apply it to the message now carrying that id and delete the
entry (the deletion is unconditional in the source). -/
def flushPending (durableId : String) (st : EngineState) : EngineState :=
  match lookupPending st.pending durableId with
  | some a =>
    { st with
      messages :=
        match findFirstIdx (idMatch durableId) st.messages with
        | some i => setIdx st.messages i (fun m => { m with analysis := some a })
        | none => st.messages,
      pending := erasePending st.pending durableId }
  | none => st

/-- Guarded append of the assistant reply in send: a no-op when a message
with the durable id is already displayed. -/
def appendAssistant (aid replyText : String) (msgs : List ChatMessage) : List ChatMessage :=
  if aid ∈ idsOf msgs then msgs
  else msgs ++ [{ id := aid, role := Role.assistant, content := replyText, analysis := none }]

/-- Text of the locally synthesized failure message in send. -/
def errorText : String := "Failed to reach chatbot. Please try again."

/-- User-message phase of the parsed response: when userMessageId is truthy,
swap the temporary id to it and flush any pending analysis captured before
the swap. -/
def resolveUser (tempId : String) (data : ApiData) (st : EngineState) : EngineState :=
  match data.userMessageId with
  | some u =>
    if u = "" then st
    else flushPending u { st with messages := swapUserId tempId u st.messages }
  | none => st

/-- Conversation-adoption phase of the parsed response: adopt the returned
chatId when it is truthy and none was set (data.chatId && !chatId). -/
def resolveChat (data : ApiData) (st : EngineState) : EngineState :=
  match data.chatId with
  | some c => if c ≠ "" ∧ st.chatId = none then { st with chatId := some c } else st
  | none => st

/-- Assistant-reply phase of the parsed response: append the reply under its
durable id, duplicate-guarded, when the id is truthy and the reply is a
string. -/
def resolveAssistant (data : ApiData) (st : EngineState) : EngineState :=
  match data.assistantMessageId, data.reply with
  | some aid, some r =>
    if aid = "" then st else { st with messages := appendAssistant aid r st.messages }
  | _, _ => st

/-- Response phase of send in chat.tsx.  On a thrown round trip an
assistant-role error entry is appended and the sending flag cleared.  On a
parsed body the handler runs the user-message swap, the conversation
adoption and the assistant append in source order.  The HTTP status is
carried but never read, exactly as in the source, which calls res.json()
without checking res.ok. -/
def submitResolve (tempId : String) (outcome : SubmitOutcome) (st : EngineState) : EngineState :=
  match outcome with
  | SubmitOutcome.thrown ts =>
    { st with
      messages := st.messages ++ [{ id := "err-" ++ ts, role := Role.assistant, content := errorText, analysis := none }],
      sending := false }
  | SubmitOutcome.parsed _ data =>
    { resolveAssistant data (resolveChat data (resolveUser tempId data st)) with sending := false }

/-- Backfill merge of send: append exactly the fetched rows whose id is not
already displayed, in fetched order, returning the previous list object
when nothing is to be added. -/
def backfillMerge (recent : List Row) (msgs : List ChatMessage) : List ChatMessage :=
  let toAdd := (recent.filter (fun r => decide (r.id ∉ idsOf msgs))).map rowToMessage
  if toAdd = [] then msgs else msgs ++ toAdd

/-- Backfill step: a no-op when the fetch failed or was skipped, otherwise
the merge of the fetched rows. -/
def backfillOp (result : Option (List Row)) (st : EngineState) : EngineState :=
  match result with
  | none => st
  | some rows => { st with messages := backfillMerge rows st.messages }

/-- Store side of the backfill fetch in send: the query orders the
conversation's rows by created_at ascending and limits to 10, hence over the
time-ordered row list of the conversation it returns the first ten rows. -/
def backfillQuery (store : List Row) : List Row :=
  store.take 10

/-- Operations applied to the engine, with their store or endpoint inputs.
Load and Backfill carry the store read result (none on failure), start and
resolve are the two phases of Submit around its suspension point, and feed
is a change-feed delivery. -/
inductive Op where
  | load (result : Option (List Row))
  | start (tempId content : String)
  | resolve (tempId : String) (outcome : SubmitOutcome)
  | feed (kind : FeedKind) (row : Row)
  | backfill (result : Option (List Row))
deriving DecidableEq

/-- One engine transition. -/
def step (st : EngineState) : Op → EngineState
  | Op.load r => loadMessages r st
  | Op.start t c => submitStart t c st
  | Op.resolve t o => submitResolve t o st
  | Op.feed k row => changeEvent k row st
  | Op.backfill r => backfillOp r st

/-- State after a sequence of operations. -/
def run (st : EngineState) (ops : List Op) : EngineState :=
  ops.foldl step st

/-- Well-formedness of one operation's external input against the current
state, capturing the documented collaborator contracts: store reads return
rows with pairwise distinct ids (the store is keyed by id) none of which is
the local system id, the client picks fresh temporary and error-entry ids
from the clock, and the endpoint returns a durable user-message id that is
fresh unless the optimistic entry was already upgraded to it. -/
def stepOK (st : EngineState) : Op → Bool
  | Op.load r =>
    match r with
    | some rows => decide ((rows.map Row.id).Nodup) && decide ("sys" ∉ rows.map Row.id)
    | none => true
  | Op.start t _ => decide (t ∉ idsOf st.messages)
  | Op.resolve t o =>
    match o with
    | SubmitOutcome.thrown ts => decide (("err-" ++ ts) ∉ idsOf st.messages)
    | SubmitOutcome.parsed _ data =>
      match data.userMessageId with
      | some u => decide (t ∈ idsOf st.messages → u ∉ idsOf st.messages)
      | none => true
  | Op.feed _ _ => true
  | Op.backfill r =>
    match r with
    | some rows => decide ((rows.map Row.id).Nodup)
    | none => true

/-- Well-formedness of a whole operation sequence along its own execution. -/
def runOK (st : EngineState) : List Op → Bool
  | [] => true
  | op :: ops => stepOK st op && runOK (step st op) ops

/-- No-duplicate-display invariant: each id occurs at most once in the list. -/
def DupFree (st : EngineState) : Prop :=
  (idsOf st.messages).Nodup

/-- Parse outcome of the model reply inside analyzeAnger in
api/_lib/analysis.ts: fail when JSON.parse throws, otherwise the anger field
as a finite number, or none when the field is absent or null (in which case
the source substitutes 1 before clamping). -/
inductive AngerParse where
  | fail
  | ok (anger : Option ℚ)

/-- Post-processing of analyzeAnger: on a parse failure the score is 1,
otherwise Math.max(1, Math.min(5, n)) of the anger value, with 1 substituted
for an absent field. -/
def analyzeAngerScore : AngerParse → ℚ
  | AngerParse.fail => 1
  | AngerParse.ok a =>
    let n := match a with
      | some n => n
      | none => 1
    max 1 (min 5 n)

/-- Result of the chats-table ownership lookup in api/chat.ts: a query
error, no row, or the row's user_id. -/
inductive ChatLookup where
  | err
  | notFound
  | found (ownerId : String)
deriving DecidableEq

/-- External inputs of one authenticated run of the submission handler in
api/chat.ts: the authenticated user (none reproduces the 401 path), the
request body's chatId and content, the ownership lookup result, the id
returned by the chats insert (none on error), the id returned by the user
message insert (none on error), the completion reply, and the id returned by
the assistant message insert (none on error). -/
structure HandlerInput where
  userId : Option String
  incomingChatId : Option String
  content : String
  chatLookup : ChatLookup
  newChatId : Option String
  userInsertId : Option String
  reply : String
  assistantInsertId : Option String
deriving DecidableEq

/-- Messages-table write attempted by the handler. -/
structure MessageInsert where
  chat_id : String
  user_id : String
  role : Role
  content : String
deriving DecidableEq

/-- Observable outcome of the handler: the HTTP status, the response fields,
the chats rows created (id and owner), and the message writes attempted. -/
structure HandlerResult where
  status : Nat
  chatId : Option String
  userMessageId : Option String
  assistantMessageId : Option String
  replyText : Option String
  createdChats : List (String × String)
  messageInserts : List MessageInsert
deriving DecidableEq

/-- Message-insertion tail of the handler: insert the user message under the
active chat (500 on error), then the assistant reply, and answer 200 with
the chat id, both message ids and the reply text. -/
def chatHandlerRest (uid cid : String) (created : List (String × String)) (inp : HandlerInput) : HandlerResult :=
  let userIns : MessageInsert := { chat_id := cid, user_id := uid, role := Role.user, content := inp.content }
  match inp.userInsertId with
  | none =>
    { status := 500, chatId := none, userMessageId := none, assistantMessageId := none,
      replyText := none, createdChats := created, messageInserts := [userIns] }
  | some um =>
    let asstIns : MessageInsert := { chat_id := cid, user_id := uid, role := Role.assistant, content := inp.reply }
    { status := 200, chatId := some cid, userMessageId := some um,
      assistantMessageId := inp.assistantInsertId, replyText := some inp.reply,
      createdChats := created, messageInserts := [userIns, asstIns] }

/-- Submission handler of api/chat.ts after CORS, method and body checks:
reject unauthenticated requests with 401; keep the supplied chatId only when
the ownership lookup finds the row and its user_id equals the requester;
otherwise create a fresh chat owned by the requester (500 when that insert
fails) and continue under the resulting chat id. -/
def chatHandler (inp : HandlerInput) : HandlerResult :=
  match inp.userId with
  | none =>
    { status := 401, chatId := none, userMessageId := none, assistantMessageId := none,
      replyText := none, createdChats := [], messageInserts := [] }
  | some uid =>
    let owned : Option String :=
      match inp.incomingChatId with
      | none => none
      | some c =>
        match inp.chatLookup with
        | ChatLookup.found o => if o = uid then some c else none
        | _ => none
    match owned with
    | some c => chatHandlerRest uid c [] inp
    | none =>
      match inp.newChatId with
      | none =>
        { status := 500, chatId := none, userMessageId := none, assistantMessageId := none,
          replyText := none, createdChats := [], messageInserts := [] }
      | some f => chatHandlerRest uid f [(f, uid)] inp

/-- Store row used by concrete scenarios: the n-th user message of
conversation c, in time order. -/
def demoRow (n : Nat) : Row :=
  { id := "u-" ++ toString n, role := Role.user, content := "m" ++ toString n,
    chat_id := "c", analysis := none }

/-! Infrastructure lemmas about the list and table helpers. -/

theorem nth_mem {α : Type} : ∀ {l : List α} {i : Nat} {a : α}, nth l i = some a → a ∈ l
  | [], _, _, h => by simp [nth] at h
  | b :: l, 0, a, h => by
    simp [nth] at h
    exact h ▸ List.mem_cons_self b l
  | b :: l, i + 1, a, h => by
    simp [nth] at h
    exact List.mem_cons_of_mem b (nth_mem h)

theorem setIdx_length {α : Type} : ∀ (l : List α) (i : Nat) (f : α → α), (setIdx l i f).length = l.length
  | [], _, _ => rfl
  | _ :: _, 0, _ => rfl
  | _ :: l, i + 1, f => by simp [setIdx, setIdx_length l i f]

theorem nth_setIdx_ne {α : Type} :
    ∀ (l : List α) (i j : Nat) (f : α → α), j ≠ i → nth (setIdx l i f) j = nth l j
  | [], _, _, _, _ => rfl
  | _ :: _, 0, 0, _, h => absurd rfl h
  | _ :: _, 0, _ + 1, _, _ => rfl
  | _ :: _, _ + 1, 0, _, _ => rfl
  | _ :: l, i + 1, j + 1, f, h => by
    simp [setIdx, nth]
    exact nth_setIdx_ne l i j f (fun hji => h (congrArg (· + 1) hji))

theorem nth_setIdx_self {α : Type} :
    ∀ {l : List α} {i : Nat} {a : α} (f : α → α), nth l i = some a → nth (setIdx l i f) i = some (f a)
  | [], _, _, _, h => by simp [nth] at h
  | b :: l, 0, a, f, h => by
    simp [nth] at h
    simp [setIdx, nth, h]
  | b :: l, i + 1, a, f, h => by
    simp [nth] at h
    simpa [setIdx, nth] using nth_setIdx_self f h

theorem idsOf_append (l l' : List ChatMessage) : idsOf (l ++ l') = idsOf l ++ idsOf l' := by
  simp [idsOf]

theorem idsOf_setIdx_keep :
    ∀ (l : List ChatMessage) (i : Nat) (f : ChatMessage → ChatMessage),
      (∀ m, (f m).id = m.id) → idsOf (setIdx l i f) = idsOf l
  | [], _, _, _ => rfl
  | m :: l, 0, f, hf => by simp [setIdx, idsOf, hf m]
  | m :: l, i + 1, f, hf => by
    simp [setIdx, idsOf]
    simpa [idsOf] using idsOf_setIdx_keep l i f hf

theorem idsOf_setIdx_const :
    ∀ (l : List ChatMessage) (i : Nat) (f : ChatMessage → ChatMessage) (v : String),
      (∀ m, (f m).id = v) → idsOf (setIdx l i f) = setIdx (idsOf l) i (fun _ => v)
  | [], _, _, _, _ => rfl
  | m :: l, 0, f, v, hf => by simp [setIdx, idsOf, hf m]
  | m :: l, i + 1, f, v, hf => by
    simp [setIdx, idsOf]
    simpa [idsOf] using idsOf_setIdx_const l i f v hf

theorem mem_setIdx_const {α : Type} :
    ∀ {l : List α} {i : Nat} {v x : α}, x ∈ setIdx l i (fun _ => v) → x ∈ l ∨ x = v
  | [], _, _, _, h => by simp [setIdx] at h
  | a :: l, 0, v, x, h => by
    simp [setIdx] at h
    rcases h with h | h
    · exact Or.inr h
    · exact Or.inl (List.mem_cons_of_mem a h)
  | a :: l, i + 1, v, x, h => by
    simp [setIdx] at h
    rcases h with h | h
    · exact Or.inl (h ▸ List.mem_cons_self a l)
    · rcases mem_setIdx_const h with h' | h'
      · exact Or.inl (List.mem_cons_of_mem a h')
      · exact Or.inr h'

theorem nodup_setIdx_const_fresh {α : Type} :
    ∀ {l : List α} {v : α}, l.Nodup → v ∉ l → ∀ (i : Nat), (setIdx l i (fun _ => v)).Nodup
  | [], _, _, _, _ => List.nodup_nil
  | a :: l, v, hn, hv, 0 => by
    rw [List.nodup_cons] at hn
    simp [setIdx]
    exact ⟨fun hvl => hv (List.mem_cons_of_mem a hvl), hn.2⟩
  | a :: l, v, hn, hv, i + 1 => by
    rw [List.nodup_cons] at hn
    simp only [setIdx]
    rw [List.nodup_cons]
    refine ⟨fun ha => ?_, nodup_setIdx_const_fresh hn.2 (fun h => hv (List.mem_cons_of_mem a h)) i⟩
    rcases mem_setIdx_const ha with h' | h'
    · exact hn.1 h'
    · exact hv (h' ▸ List.mem_cons_self a l)

theorem nodup_append_singleton {α : Type} {l : List α} {x : α}
    (hn : l.Nodup) (hx : x ∉ l) : (l ++ [x]).Nodup := by
  induction l with
  | nil => simp
  | cons a l ih =>
    rw [List.nodup_cons] at hn
    rw [List.cons_append, List.nodup_cons]
    refine ⟨fun ha => ?_, ih hn.2 (fun h => hx (List.mem_cons_of_mem a h))⟩
    rcases List.mem_append.mp ha with h' | h'
    · exact hn.1 h'
    · rcases List.mem_singleton.mp h' with h''
      exact hx (h'' ▸ List.mem_cons_self a l)

theorem findFirstIdx_some_nth {α : Type} {p : α → Bool} :
    ∀ {l : List α} {i : Nat}, findFirstIdx p l = some i → ∃ a, nth l i = some a ∧ p a = true
  | [], _, h => by simp [findFirstIdx] at h
  | a :: l, i, h => by
    by_cases hp : p a
    · simp [findFirstIdx, hp] at h
      exact ⟨a, by simp [← h, nth], hp⟩
    · simp [findFirstIdx, hp] at h
      rcases h with ⟨i', hi', rfl⟩
      rcases findFirstIdx_some_nth hi' with ⟨b, hb, hpb⟩
      exact ⟨b, by simpa [nth] using hb, hpb⟩

theorem findFirstIdx_none {α : Type} {p : α → Bool} :
    ∀ {l : List α}, findFirstIdx p l = none → ∀ a ∈ l, p a = false
  | [], _, a, ha => by simp at ha
  | b :: l, h, a, ha => by
    by_cases hp : p b
    · simp [findFirstIdx, hp] at h
    · simp [findFirstIdx, hp] at h
      rcases List.mem_cons.mp ha with rfl | ha'
      · simpa using hp
      · exact findFirstIdx_none h a ha'

theorem findLastIdx_some_nth {α : Type} {p : α → Bool} :
    ∀ {l : List α} {i : Nat}, findLastIdx p l = some i → ∃ a, nth l i = some a ∧ p a = true
  | [], _, h => by simp [findLastIdx] at h
  | a :: l, i, h => by
    rcases hl : findLastIdx p l with _ | i'
    · by_cases hp : p a
      · simp [findLastIdx, hl, hp] at h
        exact ⟨a, by simp [← h, nth], hp⟩
      · simp [findLastIdx, hl, hp] at h
    · simp [findLastIdx, hl] at h
      rcases findLastIdx_some_nth hl with ⟨b, hb, hpb⟩
      exact ⟨b, by simpa [← h, nth] using hb, hpb⟩

theorem findLastIdx_some_lt {α : Type} {p : α → Bool} :
    ∀ {l : List α} {i : Nat}, findLastIdx p l = some i → i < l.length
  | [], _, h => by simp [findLastIdx] at h
  | a :: l, i, h => by
    rcases hl : findLastIdx p l with _ | i'
    · by_cases hp : p a
      · simp [findLastIdx, hl, hp] at h
        simp [← h]
      · simp [findLastIdx, hl, hp] at h
    · simp [findLastIdx, hl] at h
      have := findLastIdx_some_lt hl
      simp [← h, Nat.succ_lt_succ this]

theorem mem_ids_findFirstIdx {v : String} :
    ∀ {l : List ChatMessage}, v ∈ idsOf l → ∃ i, findFirstIdx (idMatch v) l = some i
  | [], h => by simp [idsOf] at h
  | m :: l, h => by
    by_cases hm : m.id = v
    · exact ⟨0, by simp [findFirstIdx, idMatch, hm]⟩
    · have h' : v ∈ idsOf l := by
        simp [idsOf] at h ⊢
        rcases h with h | h
        · exact absurd h.symm hm
        · exact h
      rcases mem_ids_findFirstIdx h' with ⟨i, hi⟩
      exact ⟨i + 1, by simp [findFirstIdx, idMatch, hm, hi]⟩

theorem findFirstIdx_none_not_mem {v : String} {l : List ChatMessage}
    (h : findFirstIdx (idMatch v) l = none) : v ∉ idsOf l := by
  intro hv
  rcases mem_ids_findFirstIdx hv with ⟨i, hi⟩
  rw [h] at hi
  exact Option.noConfusion hi

theorem findFirstIdx_setIdx_found {v : String} :
    ∀ {l : List ChatMessage} {i : Nat} (f : ChatMessage → ChatMessage),
      findFirstIdx (idMatch v) l = some i → (∀ m, (f m).id = v) →
      findFirstIdx (idMatch v) (setIdx l i f) = some i
  | [], _, _, h, _ => by simp [findFirstIdx] at h
  | m :: l, i, f, h, hf => by
    by_cases hm : m.id = v
    · simp [findFirstIdx, idMatch, hm] at h
      simp [← h, setIdx, findFirstIdx, idMatch, hf m]
    · simp [findFirstIdx, idMatch, hm] at h
      rcases h with ⟨i', hi', rfl⟩
      simp [setIdx, findFirstIdx, idMatch, hm, findFirstIdx_setIdx_found f hi' hf]

theorem findFirstIdx_setIdx_of_none {v : String} :
    ∀ {l : List ChatMessage} {i : Nat} (f : ChatMessage → ChatMessage),
      findFirstIdx (idMatch v) l = none → (∀ m, (f m).id = v) → i < l.length →
      findFirstIdx (idMatch v) (setIdx l i f) = some i
  | [], i, _, _, _, hi => by simp at hi
  | m :: l, 0, f, h, hf, _ => by
    simp [setIdx, findFirstIdx, idMatch, hf m]
  | m :: l, i + 1, f, h, hf, hi => by
    by_cases hm : m.id = v
    · simp [findFirstIdx, idMatch, hm] at h
    · simp [findFirstIdx, idMatch, hm] at h
      have := findFirstIdx_setIdx_of_none f h hf (Nat.lt_of_succ_lt_succ hi)
      simp [setIdx, findFirstIdx, idMatch, hm, this]

theorem setIdx_setIdx_idem {α : Type} :
    ∀ (l : List α) (i : Nat) (g : α → α), (∀ a, g (g a) = g a) →
      setIdx (setIdx l i g) i g = setIdx l i g
  | [], _, _, _ => rfl
  | a :: l, 0, g, hg => by simp [setIdx, hg a]
  | a :: l, i + 1, g, hg => by simp [setIdx, setIdx_setIdx_idem l i g hg]

theorem lookupPending_erase :
    ∀ (p : List (String × Int)) (k : String), lookupPending (erasePending p k) k = none
  | [], _ => rfl
  | (k', v) :: l, k => by
    by_cases h : k' = k
    · simp [erasePending, h, lookupPending_erase l k]
    · simp [erasePending, lookupPending, h, lookupPending_erase l k]

theorem setPending_idem :
    ∀ (p : List (String × Int)) (k : String) (v : Int),
      setPending (setPending p k v) k v = setPending p k v
  | [], k, v => by simp [setPending]
  | (k', w) :: l, k, v => by
    by_cases h : k' = k
    · simp [setPending, h]
    · simp [setPending, h, setPending_idem l k v]

theorem idsOf_setIdx_id_found {v : String} :
    ∀ {l : List ChatMessage} {i : Nat} (f : ChatMessage → ChatMessage),
      findFirstIdx (idMatch v) l = some i → (∀ m, (f m).id = v) →
      idsOf (setIdx l i f) = idsOf l
  | [], _, _, h, _ => by simp [findFirstIdx] at h
  | m :: l, i, f, h, hf => by
    by_cases hm : m.id = v
    · simp [findFirstIdx, idMatch, hm] at h
      simp [← h, setIdx, idsOf, hf m, hm]
    · simp [findFirstIdx, idMatch, hm] at h
      rcases h with ⟨i', hi', rfl⟩
      simp only [setIdx, idsOf, List.map_cons]
      have := idsOf_setIdx_id_found f hi' hf
      simp only [idsOf] at this
      rw [this]

theorem findFirstIdx_some_mem_ids {v : String} {l : List ChatMessage} {i : Nat}
    (h : findFirstIdx (idMatch v) l = some i) : v ∈ idsOf l := by
  rcases findFirstIdx_some_nth h with ⟨m, hm, hp⟩
  have : m.id = v := by simpa [idMatch] using hp
  exact this ▸ List.mem_map_of_mem ChatMessage.id (nth_mem hm)

theorem idsOf_flushPending (u : String) (st : EngineState) :
    idsOf (flushPending u st).messages = idsOf st.messages := by
  unfold flushPending
  cases hp : lookupPending st.pending u with
  | none => rfl
  | some a =>
    cases hf : findFirstIdx (idMatch u) st.messages with
    | none => rfl
    | some i =>
      simp only []
      exact idsOf_setIdx_keep st.messages i _ (fun m => rfl)

theorem nodupIds_append_fresh {msgs : List ChatMessage} {m : ChatMessage}
    (h : (idsOf msgs).Nodup) (hm : m.id ∉ idsOf msgs) : (idsOf (msgs ++ [m])).Nodup := by
  rw [idsOf_append]
  simpa [idsOf] using nodup_append_singleton h hm

theorem nodupIds_setIdx_fresh {msgs : List ChatMessage} {i : Nat}
    {f : ChatMessage → ChatMessage} {v : String}
    (h : (idsOf msgs).Nodup) (hf : ∀ m, (f m).id = v) (hv : v ∉ idsOf msgs) :
    (idsOf (setIdx msgs i f)).Nodup := by
  rw [idsOf_setIdx_const msgs i f v hf]
  exact nodup_setIdx_const_fresh h hv i

theorem nodupIds_appendAssistant (aid r : String) {msgs : List ChatMessage}
    (h : (idsOf msgs).Nodup) : (idsOf (appendAssistant aid r msgs)).Nodup := by
  unfold appendAssistant
  by_cases hmem : aid ∈ idsOf msgs
  · simpa [hmem] using h
  · rw [if_neg hmem]
    exact nodupIds_append_fresh h hmem

theorem nodupIds_swapUserId (t u : String) {msgs : List ChatMessage}
    (h : (idsOf msgs).Nodup) (hu : t ∈ idsOf msgs → u ∉ idsOf msgs) :
    (idsOf (swapUserId t u msgs)).Nodup := by
  unfold swapUserId
  cases hf : findFirstIdx (idMatch t) msgs with
  | none => exact h
  | some i =>
    exact nodupIds_setIdx_fresh h (fun m => rfl) (hu (findFirstIdx_some_mem_ids hf))

theorem dupFree_insertEvent (row : Row) (st : EngineState) (h : DupFree st) :
    DupFree (insertEvent row st) := by
  unfold insertEvent
  by_cases hmem : row.id ∈ idsOf st.messages
  · simpa [hmem] using h
  · rw [if_neg hmem]
    by_cases hrole : row.role = Role.user
    · rw [if_pos hrole]
      cases hL : findLastIdx (tempUserMatch row.content) st.messages with
      | none =>
        show (idsOf (st.messages ++ [_])).Nodup
        exact nodupIds_append_fresh h hmem
      | some i =>
        cases hp : lookupPending st.pending row.id with
        | some a =>
          show (idsOf (setIdx st.messages i _)).Nodup
          exact nodupIds_setIdx_fresh h (fun m => rfl) hmem
        | none =>
          show (idsOf (setIdx st.messages i _)).Nodup
          exact nodupIds_setIdx_fresh h (fun m => rfl) hmem
    · rw [if_neg hrole]
      show (idsOf (st.messages ++ [_])).Nodup
      exact nodupIds_append_fresh h hmem

theorem dupFree_updateEvent (row : Row) (st : EngineState) (h : DupFree st) :
    DupFree (updateEvent row st) := by
  cases han : row.analysis with
  | none => simpa [updateEvent, han] using h
  | some anger =>
    by_cases hid : row.id = ""
    · simpa [updateEvent, han, hid] using h
    · cases hf : findFirstIdx (idMatch row.id) st.messages with
      | some i =>
        simp only [updateEvent, han, hf, if_neg hid]
        show (idsOf (setIdx st.messages i _)).Nodup
        rw [idsOf_setIdx_id_found _ hf (fun m => rfl)]
        exact h
      | none =>
        cases hfl : findLastIdx (fallbackMatch row.content) st.messages with
        | some i =>
          simp only [updateEvent, han, hf, hfl, if_neg hid]
          show (idsOf (setIdx st.messages i _)).Nodup
          exact nodupIds_setIdx_fresh h (fun m => rfl) (findFirstIdx_none_not_mem hf)
        | none =>
          simp only [updateEvent, han, hf, hfl, if_neg hid]
          exact h

theorem resolveChat_messages (data : ApiData) (st : EngineState) :
    (resolveChat data st).messages = st.messages := by
  cases hdc : data.chatId with
  | none => simp [resolveChat, hdc]
  | some c =>
    by_cases hc : c ≠ "" ∧ st.chatId = none
    · simp [resolveChat, hdc, hc]
    · simp [resolveChat, hdc, hc]

theorem dupFree_resolveUser (t : String) (data : ApiData) (st : EngineState)
    (h : DupFree st)
    (hok : ∀ u, data.userMessageId = some u → t ∈ idsOf st.messages → u ∉ idsOf st.messages) :
    DupFree (resolveUser t data st) := by
  cases hdu : data.userMessageId with
  | none => simpa [resolveUser, hdu] using h
  | some u =>
    by_cases hu : u = ""
    · simpa [resolveUser, hdu, hu] using h
    · simp only [resolveUser, hdu, if_neg hu]
      show (idsOf (flushPending u _).messages).Nodup
      rw [idsOf_flushPending]
      exact nodupIds_swapUserId t u h (hok u hdu)

theorem dupFree_resolveAssistant (data : ApiData) (st : EngineState) (h : DupFree st) :
    DupFree (resolveAssistant data st) := by
  cases hda : data.assistantMessageId with
  | none => simpa [resolveAssistant, hda] using h
  | some aid =>
    cases hdr : data.reply with
    | none => simpa [resolveAssistant, hda, hdr] using h
    | some r =>
      by_cases ha : aid = ""
      · simpa [resolveAssistant, hda, hdr, ha] using h
      · simp only [resolveAssistant, hda, hdr, if_neg ha]
        exact nodupIds_appendAssistant aid r h

theorem dupFree_backfillMerge (rows : List Row) {msgs : List ChatMessage}
    (h : (idsOf msgs).Nodup) (hrows : (rows.map Row.id).Nodup) :
    (idsOf (backfillMerge rows msgs)).Nodup := by
  unfold backfillMerge
  set toAdd := (rows.filter (fun r => decide (r.id ∉ idsOf msgs))).map rowToMessage with hta
  by_cases he : toAdd = []
  · rw [if_pos he]
    exact h
  · rw [if_neg he, idsOf_append]
    have hids : idsOf toAdd = (rows.filter (fun r => decide (r.id ∉ idsOf msgs))).map Row.id := by
      rw [hta, idsOf, List.map_map]
      rfl
    rw [hids]
    refine List.Nodup.append h ?_ ?_
    · exact hrows.sublist (List.Sublist.map Row.id (List.filter_sublist rows))
    · intro a ha hb
      rcases List.mem_map.mp hb with ⟨r, hr, rfl⟩
      have hpr := List.of_mem_filter hr
      simp only [decide_eq_true_eq] at hpr
      exact hpr ha

theorem dupFree_step (st : EngineState) (op : Op) (h : DupFree st) (hok : stepOK st op = true) :
    DupFree (step st op) := by
  cases op with
  | load r =>
    cases r with
    | none =>
      cases hc : st.chatId with
      | none => simpa [step, loadMessages, hc] using h
      | some c => simpa [step, loadMessages, hc] using h
    | some rows =>
      have hok' : (rows.map Row.id).Nodup ∧ "sys" ∉ rows.map Row.id := by
        simpa only [stepOK, Bool.and_eq_true, decide_eq_true_eq] using hok
      cases hc : st.chatId with
      | none => simpa [step, loadMessages, hc] using h
      | some c =>
        simp only [step, loadMessages, hc]
        show (idsOf (sysMessage :: rows.map rowToMessage)).Nodup
        have hids : idsOf (sysMessage :: rows.map rowToMessage) = "sys" :: rows.map Row.id := by
          rw [idsOf, List.map_cons, List.map_map]
          rfl
        rw [hids, List.nodup_cons]
        exact ⟨hok'.2, hok'.1⟩
  | start t c =>
    have hok' : t ∉ idsOf st.messages := by
      simpa only [stepOK, decide_eq_true_eq] using hok
    simp only [step, submitStart]
    by_cases hg : c = "" ∨ st.sending
    · simpa [if_pos hg] using h
    · rw [if_neg hg]
      show (idsOf (st.messages ++ [_])).Nodup
      exact nodupIds_append_fresh h hok'
  | resolve t o =>
    cases o with
    | thrown ts =>
      have hok' : ("err-" ++ ts) ∉ idsOf st.messages := by
        simpa only [stepOK, decide_eq_true_eq] using hok
      simp only [step, submitResolve]
      show (idsOf (st.messages ++ [_])).Nodup
      exact nodupIds_append_fresh h hok'
    | parsed status data =>
      simp only [step, submitResolve]
      show (idsOf (resolveAssistant data (resolveChat data (resolveUser t data st))).messages).Nodup
      apply dupFree_resolveAssistant
      show (idsOf (resolveChat data (resolveUser t data st)).messages).Nodup
      rw [resolveChat_messages]
      apply dupFree_resolveUser t data st h
      intro u hu
      rw [stepOK, hu] at hok
      simpa only [decide_eq_true_eq] using hok
  | feed k row =>
    cases hc : st.chatId with
    | none => simpa [step, changeEvent, hc] using h
    | some c =>
      by_cases hcc : row.chat_id = c
      · cases k with
        | insert =>
          simpa [step, changeEvent, hc, hcc] using dupFree_insertEvent row st h
        | update =>
          simpa [step, changeEvent, hc, hcc] using dupFree_updateEvent row st h
      · simpa [step, changeEvent, hc, hcc] using h
  | backfill r =>
    cases r with
    | none => exact h
    | some rows =>
      have hok' : (rows.map Row.id).Nodup := by
        simpa only [stepOK, decide_eq_true_eq] using hok
      simp only [step, backfillOp]
      exact dupFree_backfillMerge rows h hok'

/-- C1: for every sequence of Load, Submit (optimistic start plus response
resolution), change-feed and Backfill operations whose external inputs
respect the store and endpoint contracts captured by runOK (store reads
return rows with pairwise distinct ids none of which is the local system id,
temporary and error ids are fresh, and the returned durable user-message id
is fresh unless the optimistic entry was already upgraded to it), a state
whose displayed ids are pairwise distinct keeps that property; hence the
final list contains at most one entry per durable id.  Insert events are
discarded on an id hit, the assistant reply is appended only when its id is
absent, and Backfill appends only rows whose id is not displayed, all
unconditionally (stepOK places no condition on feed events, and none on the
assistant append or the backfill filter beyond distinctness of the fetched
batch itself). -/
theorem no_duplicate_ids_for_all_runs (st : EngineState) (ops : List Op)
    (h0 : DupFree st) (hok : runOK st ops = true) : DupFree (run st ops) := by
  induction ops generalizing st with
  | nil => exact h0
  | cons op ops ih =>
    rw [runOK, Bool.and_eq_true] at hok
    exact ih (step st op) (dupFree_step st op h0 hok.1) hok.2

/-- Witness for no_duplicate_ids_for_all_runs: a concrete run in which the
change-feed insert beats the submit response, the response then resolves the
same durable id, and a backfill re-reads both rows. -/
theorem no_duplicate_ids_for_all_runs_witness :
    runOK (initState (some "c"))
        [Op.start "100" "hi",
         Op.feed FeedKind.insert { id := "u-1", role := Role.user, content := "hi", chat_id := "c", analysis := none },
         Op.resolve "100" (SubmitOutcome.parsed 200
           { userMessageId := some "u-1", chatId := some "c", assistantMessageId := some "a-1", reply := some "hello" }),
         Op.backfill (some
           [{ id := "u-1", role := Role.user, content := "hi", chat_id := "c", analysis := none },
            { id := "a-1", role := Role.assistant, content := "hello", chat_id := "c", analysis := none }]),
         Op.feed FeedKind.insert { id := "a-1", role := Role.assistant, content := "hello", chat_id := "c", analysis := none }]
      = true ∧
    DupFree (run (initState (some "c"))
        [Op.start "100" "hi",
         Op.feed FeedKind.insert { id := "u-1", role := Role.user, content := "hi", chat_id := "c", analysis := none },
         Op.resolve "100" (SubmitOutcome.parsed 200
           { userMessageId := some "u-1", chatId := some "c", assistantMessageId := some "a-1", reply := some "hello" }),
         Op.backfill (some
           [{ id := "u-1", role := Role.user, content := "hi", chat_id := "c", analysis := none },
            { id := "a-1", role := Role.assistant, content := "hello", chat_id := "c", analysis := none }]),
         Op.feed FeedKind.insert { id := "a-1", role := Role.assistant, content := "hello", chat_id := "c", analysis := none }]) :=
  ⟨by decide, no_duplicate_ids_for_all_runs _ _
    (by show (idsOf (initState (some "c")).messages).Nodup; decide) (by decide)⟩

/-- C7: a failed store read in the load effect leaves the whole engine state,
and in particular the pinned system entry and every prior message, unchanged:
the handler returns before any setMessages call. -/
theorem load_failure_leaves_state_unchanged (st : EngineState) :
    step st (Op.load none) = st := by
  cases hc : st.chatId with
  | none => simp [step, loadMessages, hc]
  | some c => simp [step, loadMessages, hc]

/-- C8: a change-feed event, insert or update, whose row belongs to a
conversation other than the active one is discarded before any mutation:
message list and pending table (the whole state) are unchanged. -/
theorem foreign_chat_event_discarded (st : EngineState) (k : FeedKind) (row : Row)
    (c : String) (hc : st.chatId = some c) (hne : row.chat_id ≠ c) :
    step st (Op.feed k row) = st := by
  simp [step, changeEvent, hc, hne]

/-- Witness for foreign_chat_event_discarded: an insert for conversation d is
dropped while conversation c is active. -/
theorem foreign_chat_event_discarded_witness :
    (initState (some "c")).chatId = some "c" ∧
    step (initState (some "c"))
        (Op.feed FeedKind.insert { id := "u-1", role := Role.user, content := "hi", chat_id := "d", analysis := none })
      = initState (some "c") :=
  ⟨rfl, foreign_chat_event_discarded _ FeedKind.insert _ "c" rfl (by decide)⟩

theorem updateEvent_chatId (row : Row) (st : EngineState) :
    (updateEvent row st).chatId = st.chatId := by
  cases han : row.analysis with
  | none => simp [updateEvent, han]
  | some anger =>
    by_cases hid : row.id = ""
    · simp [updateEvent, han, hid]
    · cases hf : findFirstIdx (idMatch row.id) st.messages with
      | some i => simp [updateEvent, han, hf, hid]
      | none =>
        cases hfl : findLastIdx (fallbackMatch row.content) st.messages with
        | some i => simp [updateEvent, han, hf, hfl, hid]
        | none => simp [updateEvent, han, hf, hfl, hid]

theorem updateEvent_idem (row : Row) (st : EngineState) :
    updateEvent row (updateEvent row st) = updateEvent row st := by
  cases han : row.analysis with
  | none => simp [updateEvent, han]
  | some anger =>
    by_cases hid : row.id = ""
    · simp [updateEvent, han, hid]
    · cases hf : findFirstIdx (idMatch row.id) st.messages with
      | some i =>
        have h2 := findFirstIdx_setIdx_found
          (fun m => { m with id := row.id, analysis := some anger }) hf (fun m => rfl)
        have h3 := setIdx_setIdx_idem st.messages i
          (fun m => { m with id := row.id, analysis := some anger }) (fun m => rfl)
        simp [updateEvent, han, hf, h2, h3, hid]
      | none =>
        cases hfl : findLastIdx (fallbackMatch row.content) st.messages with
        | some i =>
          have hlt := findLastIdx_some_lt hfl
          have h2 := findFirstIdx_setIdx_of_none
            (fun m => { m with id := row.id, analysis := some anger }) hf (fun m => rfl) hlt
          have h3 := setIdx_setIdx_idem st.messages i
            (fun m => { m with id := row.id, analysis := some anger }) (fun m => rfl)
          simp [updateEvent, han, hf, hfl, h2, h3, hid]
        | none =>
          have h4 := setPending_idem st.pending row.id anger
          simp [updateEvent, han, hf, hfl, hid, h4]

/-- C6: applying the same annotation update event twice yields exactly the
same engine state, and hence the same final annotation value on the target
message, as applying it once. -/
theorem annotation_update_idempotent (row : Row) (st : EngineState) :
    step (step st (Op.feed FeedKind.update row)) (Op.feed FeedKind.update row)
      = step st (Op.feed FeedKind.update row) := by
  cases hc : st.chatId with
  | none => simp [step, changeEvent, hc]
  | some c =>
    by_cases hcc : row.chat_id = c
    · have hchat : (updateEvent row st).chatId = some c := by
        rw [updateEvent_chatId]
        exact hc
      simp [step, changeEvent, hc, hchat, hcc, updateEvent_idem]
    · simp [step, changeEvent, hc, hcc]

theorem findFirstIdx_some_lt {α : Type} {p : α → Bool} :
    ∀ {l : List α} {i : Nat}, findFirstIdx p l = some i → i < l.length
  | [], _, h => by simp [findFirstIdx] at h
  | a :: l, i, h => by
    by_cases hp : p a
    · simp [findFirstIdx, hp] at h
      simp [← h]
    · simp [findFirstIdx, hp] at h
      rcases h with ⟨i', hi', rfl⟩
      have := findFirstIdx_some_lt hi'
      simpa using Nat.succ_lt_succ this

theorem not_mem_findFirstIdx_none {v : String} {l : List ChatMessage}
    (h : v ∉ idsOf l) : findFirstIdx (idMatch v) l = none := by
  cases hf : findFirstIdx (idMatch v) l with
  | none => rfl
  | some i => exact absurd (findFirstIdx_some_mem_ids hf) h

theorem resolveChat_pending (data : ApiData) (st : EngineState) :
    (resolveChat data st).pending = st.pending := by
  cases hdc : data.chatId with
  | none => simp [resolveChat, hdc]
  | some c =>
    by_cases hc : c ≠ "" ∧ st.chatId = none
    · simp [resolveChat, hdc, hc]
    · simp [resolveChat, hdc, hc]

theorem resolveAssistant_pending (data : ApiData) (st : EngineState) :
    (resolveAssistant data st).pending = st.pending := by
  cases hda : data.assistantMessageId with
  | none => simp [resolveAssistant, hda]
  | some aid =>
    cases hdr : data.reply with
    | none => simp [resolveAssistant, hda, hdr]
    | some r =>
      by_cases ha : aid = ""
      · simp [resolveAssistant, hda, hdr, ha]
      · simp [resolveAssistant, hda, hdr, ha]

theorem mem_resolveAssistant (data : ApiData) (st : EngineState) {m : ChatMessage}
    (h : m ∈ st.messages) : m ∈ (resolveAssistant data st).messages := by
  cases hda : data.assistantMessageId with
  | none => simpa [resolveAssistant, hda] using h
  | some aid =>
    cases hdr : data.reply with
    | none => simpa [resolveAssistant, hda, hdr] using h
    | some r =>
      by_cases ha : aid = ""
      · simpa [resolveAssistant, hda, hdr, ha] using h
      · simp only [resolveAssistant, hda, hdr, if_neg ha]
        show m ∈ appendAssistant aid r st.messages
        unfold appendAssistant
        by_cases hmem : aid ∈ idsOf st.messages
        · simpa [hmem] using h
        · rw [if_neg hmem]
          exact List.mem_append_left _ h

/-- C2 counterexample: an annotation update for durable id u-1 arrives
before any message carries that id or content, so it is stashed; the insert
event for u-1 then arrives, finds no optimistic temporary entry to upgrade,
and appends the row, after which u-1 is known in the list with no analysis
while the pending entry is still present — the stashed annotation was not
applied when u-1 became known, contradicting the claim. -/
theorem pending_not_flushed_on_insert_append :
    (run (initState (some "c"))
        [Op.feed FeedKind.update { id := "u-1", role := Role.user, content := "hi", chat_id := "c", analysis := some 4 },
         Op.feed FeedKind.insert { id := "u-1", role := Role.user, content := "hi", chat_id := "c", analysis := none }]).messages
      = [sysMessage, { id := "u-1", role := Role.user, content := "hi", analysis := none }]
    ∧ lookupPending (run (initState (some "c"))
        [Op.feed FeedKind.update { id := "u-1", role := Role.user, content := "hi", chat_id := "c", analysis := some 4 },
         Op.feed FeedKind.insert { id := "u-1", role := Role.user, content := "hi", chat_id := "c", analysis := none }]).pending "u-1"
      = some 4 := by
  decide

/-- C2 amended: a stashed annotation for durable id X is applied, and its
pending entry removed, at the moment X becomes known through an id upgrade:
either a change-feed insert that upgrades an optimistic temporary entry by
content match, or the Submit-response id swap.  An insert event that merely
appends X (no temporary entry matches) applies nothing and leaves the entry
stashed.  Removal of the entry makes the application happen at most once. -/
theorem pending_flush_on_upgrade (st : EngineState) (row : Row) (c : String)
    (a : Int) (t u : String) (data : ApiData) (status : Nat) (i : Nat) :
    (st.chatId = some c → row.chat_id = c → row.role = Role.user →
      row.id ∉ idsOf st.messages →
      lookupPending st.pending row.id = some a →
      findLastIdx (tempUserMatch row.content) st.messages = some i →
      (∃ m0, nth st.messages i = some m0 ∧
        nth (step st (Op.feed FeedKind.insert row)).messages i
          = some { m0 with id := row.id, analysis := some a }) ∧
      lookupPending (step st (Op.feed FeedKind.insert row)).pending row.id = none)
    ∧
    (data.userMessageId = some u → u ≠ "" →
      t ∈ idsOf st.messages → u ∉ idsOf st.messages →
      lookupPending st.pending u = some a →
      (∃ m ∈ (step st (Op.resolve t (SubmitOutcome.parsed status data))).messages,
          m.id = u ∧ m.analysis = some a) ∧
      lookupPending (step st (Op.resolve t (SubmitOutcome.parsed status data))).pending u = none) := by
  constructor
  · intro hchat hcc hrole hnot hlook hfind
    simp only [step, changeEvent, hchat, if_pos hcc, insertEvent, if_neg hnot, if_pos hrole,
      hfind, hlook]
    rcases findLastIdx_some_nth hfind with ⟨m0, hm0, hp0⟩
    refine ⟨⟨m0, hm0, ?_⟩, ?_⟩
    · exact nth_setIdx_self _ hm0
    · exact lookupPending_erase st.pending row.id
  · intro hdu hu ht hunot hlook
    have hswap : ∃ j m0, findFirstIdx (idMatch t) st.messages = some j ∧
        nth st.messages j = some m0 := by
      rcases mem_ids_findFirstIdx ht with ⟨j, hj⟩
      rcases findFirstIdx_some_nth hj with ⟨m0, hm0, _⟩
      exact ⟨j, m0, hj, hm0⟩
    rcases hswap with ⟨j, m0, hj, hm0⟩
    have hjlt : j < st.messages.length := findFirstIdx_some_lt hj
    have hswapped : swapUserId t u st.messages
        = setIdx st.messages j (fun m => { m with id := u }) := by
      simp [swapUserId, hj]
    have hnone : findFirstIdx (idMatch u) st.messages = none := not_mem_findFirstIdx_none hunot
    have hfound : findFirstIdx (idMatch u) (setIdx st.messages j (fun m => { m with id := u }))
        = some j := findFirstIdx_setIdx_of_none _ hnone (fun m => rfl) hjlt
    have hmsgs1 : nth (setIdx st.messages j (fun m => { m with id := u })) j
        = some { m0 with id := u } := nth_setIdx_self _ hm0
    have hresolve : resolveUser t data st
        = { st with
            messages := setIdx (setIdx st.messages j (fun m => { m with id := u })) j
              (fun m => { m with analysis := some a }),
            pending := erasePending st.pending u } := by
      simp only [resolveUser, hdu, if_neg hu, hswapped, flushPending]
      simp [hlook, hfound]
    have hmem : { m0 with id := u, analysis := some a }
        ∈ (resolveUser t data st).messages := by
      rw [hresolve]
      exact nth_mem (nth_setIdx_self _ hmsgs1)
    constructor
    · refine ⟨{ m0 with id := u, analysis := some a }, ?_, rfl, rfl⟩
      show _ ∈ (step st (Op.resolve t (SubmitOutcome.parsed status data))).messages
      simp only [step, submitResolve]
      show _ ∈ (resolveAssistant data (resolveChat data (resolveUser t data st))).messages
      apply mem_resolveAssistant
      rw [resolveChat_messages]
      exact hmem
    · show lookupPending (step st (Op.resolve t (SubmitOutcome.parsed status data))).pending u = none
      simp only [step, submitResolve]
      show lookupPending (resolveAssistant data (resolveChat data (resolveUser t data st))).pending u = none
      rw [resolveAssistant_pending, resolveChat_pending, hresolve]
      exact lookupPending_erase st.pending u

/-- Witness for pending_flush_on_upgrade: both upgrade paths at a concrete
state holding an optimistic entry with temporary id 7 and a stashed
annotation 4 for durable id u-1. -/
theorem pending_flush_on_upgrade_witness :
    ((∃ m0, nth ({ messages := [sysMessage, { id := "7", role := Role.user, content := "hi", analysis := none }], pending := [("u-1", 4)], chatId := some "c", sending := true } : EngineState).messages 1 = some m0 ∧ nth (step ({ messages := [sysMessage, { id := "7", role := Role.user, content := "hi", analysis := none }], pending := [("u-1", 4)], chatId := some "c", sending := true } : EngineState) (Op.feed FeedKind.insert { id := "u-1", role := Role.user, content := "hi", chat_id := "c", analysis := none })).messages 1 = some { m0 with id := "u-1", analysis := some 4 }) ∧ lookupPending (step ({ messages := [sysMessage, { id := "7", role := Role.user, content := "hi", analysis := none }], pending := [("u-1", 4)], chatId := some "c", sending := true } : EngineState) (Op.feed FeedKind.insert { id := "u-1", role := Role.user, content := "hi", chat_id := "c", analysis := none })).pending "u-1" = none)
    ∧
    ((∃ m ∈ (step ({ messages := [sysMessage, { id := "7", role := Role.user, content := "hi", analysis := none }], pending := [("u-1", 4)], chatId := some "c", sending := true } : EngineState) (Op.resolve "7" (SubmitOutcome.parsed 200 { userMessageId := some "u-1", chatId := none, assistantMessageId := none, reply := none }))).messages, m.id = "u-1" ∧ m.analysis = some 4) ∧ lookupPending (step ({ messages := [sysMessage, { id := "7", role := Role.user, content := "hi", analysis := none }], pending := [("u-1", 4)], chatId := some "c", sending := true } : EngineState) (Op.resolve "7" (SubmitOutcome.parsed 200 { userMessageId := some "u-1", chatId := none, assistantMessageId := none, reply := none }))).pending "u-1" = none) :=
  ⟨(pending_flush_on_upgrade ({ messages := [sysMessage, { id := "7", role := Role.user, content := "hi", analysis := none }], pending := [("u-1", 4)], chatId := some "c", sending := true } : EngineState) { id := "u-1", role := Role.user, content := "hi", chat_id := "c", analysis := none } "c" 4 "7" "u-1" { userMessageId := some "u-1", chatId := none, assistantMessageId := none, reply := none } 200 1).1 rfl rfl rfl (by decide) (by decide) (by decide),
   (pending_flush_on_upgrade ({ messages := [sysMessage, { id := "7", role := Role.user, content := "hi", analysis := none }], pending := [("u-1", 4)], chatId := some "c", sending := true } : EngineState) { id := "u-1", role := Role.user, content := "hi", chat_id := "c", analysis := none } "c" 4 "7" "u-1" { userMessageId := some "u-1", chatId := none, assistantMessageId := none, reply := none } 200 1).2 rfl (by decide) (by decide) (by decide) (by decide)⟩

/-- C3 counterexample: a Submit whose round trip yields HTTP status 500 with
a parsable JSON error body (no ids) appends no assistant error message: the
source never checks res.ok, so a non-success status with JSON body is
processed as data and the catch path never runs.  The list is exactly the
prior one — the pinned entry and the optimistic user message, and no entry
carries the synthesized error text. -/
theorem no_error_message_on_http_500 :
    (step (step (initState (some "c")) (Op.start "100" "hi"))
        (Op.resolve "100" (SubmitOutcome.parsed 500
          { userMessageId := none, chatId := none, assistantMessageId := none, reply := none }))).messages
      = [sysMessage, { id := "100", role := Role.user, content := "hi", analysis := none }]
    ∧ ∀ m ∈ (step (step (initState (some "c")) (Op.start "100" "hi"))
        (Op.resolve "100" (SubmitOutcome.parsed 500
          { userMessageId := none, chatId := none, assistantMessageId := none, reply := none }))).messages,
        m.content ≠ errorText := by
  decide

/-- C3 amended: when the endpoint round trip throws (network failure, or a
response body that fails JSON parsing) the engine appends the synthesized
assistant-role error entry after the unchanged prior list, so the optimistic
user message is kept in place; when the round trip produced a parsable body
without a userMessageId — the shape of a non-success JSON error response —
the prior list is likewise only ever extended, never rolled back, but no
error message is synthesized. -/
theorem submit_failure_preserves_optimistic (st : EngineState) (t ts : String)
    (status : Nat) (data : ApiData) :
    (step st (Op.resolve t (SubmitOutcome.thrown ts))).messages
      = st.messages ++ [{ id := "err-" ++ ts, role := Role.assistant, content := errorText, analysis := none }]
    ∧ (data.userMessageId = none →
        ∃ extra, (step st (Op.resolve t (SubmitOutcome.parsed status data))).messages
          = st.messages ++ extra) := by
  constructor
  · rfl
  · intro hdu
    simp only [step, submitResolve]
    have h1 : resolveUser t data st = st := by simp [resolveUser, hdu]
    rw [h1]
    cases hda : data.assistantMessageId with
    | none =>
      refine ⟨[], ?_⟩
      simp [resolveAssistant, hda, resolveChat_messages]
    | some aid =>
      cases hdr : data.reply with
      | none =>
        refine ⟨[], ?_⟩
        simp [resolveAssistant, hda, hdr, resolveChat_messages]
      | some r =>
        by_cases ha : aid = ""
        · refine ⟨[], ?_⟩
          simp [resolveAssistant, hda, hdr, ha, resolveChat_messages]
        · simp only [resolveAssistant, hda, hdr, if_neg ha]
          rw [resolveChat_messages]
          unfold appendAssistant
          by_cases hmem : aid ∈ idsOf st.messages
          · exact ⟨[], by simp [hmem]⟩
          · exact ⟨[{ id := aid, role := Role.assistant, content := r, analysis := none }],
              by simp [hmem]⟩

/-- Witness for submit_failure_preserves_optimistic at a concrete state. -/
theorem submit_failure_preserves_optimistic_witness :
    ((step (initState (some "c")) (Op.resolve "100" (SubmitOutcome.thrown "5"))).messages
      = (initState (some "c")).messages
          ++ [{ id := "err-" ++ "5", role := Role.assistant, content := errorText, analysis := none }])
    ∧ ∃ extra, (step (initState (some "c")) (Op.resolve "100" (SubmitOutcome.parsed 500
        { userMessageId := none, chatId := none, assistantMessageId := none, reply := none }))).messages
        = (initState (some "c")).messages ++ extra :=
  ⟨(submit_failure_preserves_optimistic (initState (some "c")) "100" "5" 500
      { userMessageId := none, chatId := none, assistantMessageId := none, reply := none }).1,
   (submit_failure_preserves_optimistic (initState (some "c")) "100" "5" 500
      { userMessageId := none, chatId := none, assistantMessageId := none, reply := none }).2 rfl⟩

/-- C5: upgrading a temporary id to a durable id never changes the message's
position: the Submit-response swap touches only the entry at the matched
index and rewrites only its id field, and the change-feed insert upgrade
does the same with at most the pending annotation additionally applied,
leaving role and content unchanged on both paths.  (In the source the
Submit-path pending flush is a separate subsequent state update; the swap
itself changes only the id.) -/
theorem upgrade_in_place_frame (msgs : List ChatMessage) (t u : String) (i : Nat)
    (st : EngineState) (row : Row) (c : String) :
    (findFirstIdx (idMatch t) msgs = some i →
      (swapUserId t u msgs).length = msgs.length ∧
      (∀ j, j ≠ i → nth (swapUserId t u msgs) j = nth msgs j) ∧
      (∀ m0, nth msgs i = some m0 → nth (swapUserId t u msgs) i = some { m0 with id := u }))
    ∧
    (st.chatId = some c → row.chat_id = c → row.role = Role.user →
      row.id ∉ idsOf st.messages →
      findLastIdx (tempUserMatch row.content) st.messages = some i →
      (step st (Op.feed FeedKind.insert row)).messages.length = st.messages.length ∧
      (∀ j, j ≠ i → nth (step st (Op.feed FeedKind.insert row)).messages j = nth st.messages j) ∧
      (∀ m0, nth st.messages i = some m0 →
        ∃ an, nth (step st (Op.feed FeedKind.insert row)).messages i
            = some { m0 with id := row.id, analysis := an }
          ∧ (lookupPending st.pending row.id = none → an = m0.analysis))) := by
  constructor
  · intro hf
    simp only [swapUserId, hf]
    exact ⟨setIdx_length msgs i _,
      fun j hj => nth_setIdx_ne msgs i j _ hj,
      fun m0 hm0 => nth_setIdx_self _ hm0⟩
  · intro hchat hcc hrole hnot hfind
    cases hp : lookupPending st.pending row.id with
    | some a =>
      simp only [step, changeEvent, hchat, if_pos hcc, insertEvent, if_neg hnot, if_pos hrole,
        hfind, hp]
      refine ⟨setIdx_length st.messages i _,
        fun j hj => nth_setIdx_ne st.messages i j _ hj,
        fun m0 hm0 => ⟨some a, nth_setIdx_self _ hm0, fun hnone => ?_⟩⟩
      exact Option.noConfusion hnone
    | none =>
      simp only [step, changeEvent, hchat, if_pos hcc, insertEvent, if_neg hnot, if_pos hrole,
        hfind, hp]
      refine ⟨setIdx_length st.messages i _,
        fun j hj => nth_setIdx_ne st.messages i j _ hj,
        fun m0 hm0 => ⟨m0.analysis, ?_, fun _ => rfl⟩⟩
      exact nth_setIdx_self (fun m => { m with id := row.id }) hm0

/-- C4 (code bug at the failing input): with eleven rows r1..r11 of the
active conversation in store time order, of which the client already shows
the first ten, the backfill query of send (created_at ascending, limit 10)
returns the first ten rows, so the merge appends nothing and the missed
eleventh row stays absent from the display, although it is among the last
ten rows of the store that the specified sweep would re-read. -/
theorem backfill_misses_recent_row :
    backfillQuery ((List.range 11).map (fun k => demoRow (k + 1)))
      = (List.range 10).map (fun k => demoRow (k + 1))
    ∧ "u-11" ∈ ((((List.range 11).map (fun k => demoRow (k + 1))).drop 1).map Row.id)
    ∧ (step { messages := sysMessage :: ((List.range 10).map (fun k => demoRow (k + 1))).map rowToMessage, pending := [], chatId := some "c", sending := false } (Op.backfill (some (backfillQuery ((List.range 11).map (fun k => demoRow (k + 1)))))))
        = { messages := sysMessage :: ((List.range 10).map (fun k => demoRow (k + 1))).map rowToMessage, pending := [], chatId := some "c", sending := false }
    ∧ "u-11" ∉ idsOf (step { messages := sysMessage :: ((List.range 10).map (fun k => demoRow (k + 1))).map rowToMessage, pending := [], chatId := some "c", sending := false } (Op.backfill (some (backfillQuery ((List.range 11).map (fun k => demoRow (k + 1))))))).messages := by
  decide

/-- C9: the analyzeAnger post-processing returns 1 when the reply is not
valid JSON or the anger field is absent, returns the clamp min(5, max(1, n))
when the anger field is the finite number n, and under these conditions the
returned value always lies between 1 and 5 inclusive. -/
theorem analyzeAnger_clamped (p : AngerParse) :
    (p = AngerParse.fail → analyzeAngerScore p = 1)
    ∧ (p = AngerParse.ok none → analyzeAngerScore p = 1)
    ∧ (∀ n : ℚ, p = AngerParse.ok (some n) → analyzeAngerScore p = min 5 (max 1 n))
    ∧ 1 ≤ analyzeAngerScore p ∧ analyzeAngerScore p ≤ 5 := by
  have hclamp : ∀ n : ℚ, max 1 (min 5 n) = min 5 (max 1 n) := by
    intro n
    rw [max_min_distrib_left, max_eq_right (by norm_num : (1 : ℚ) ≤ 5)]
  have hbounds : ∀ n : ℚ, 1 ≤ max 1 (min 5 n) ∧ max 1 (min 5 n) ≤ 5 := by
    intro n
    exact ⟨le_max_left 1 _, max_le (by norm_num) (min_le_left 5 n)⟩
  refine ⟨?_, ?_, ?_, ?_, ?_⟩
  · intro h
    rw [h]
    rfl
  · intro h
    rw [h]
    show max 1 (min 5 (1 : ℚ)) = 1
    rw [min_eq_right (by norm_num : (1 : ℚ) ≤ 5), max_self]
  · intro n h
    rw [h]
    exact hclamp n
  · cases p with
    | fail => norm_num [analyzeAngerScore]
    | ok a =>
      cases a with
      | none => exact (hbounds 1).1
      | some n => exact (hbounds n).1
  · cases p with
    | fail => norm_num [analyzeAngerScore]
    | ok a =>
      cases a with
      | none => exact (hbounds 1).2
      | some n => exact (hbounds n).2

/-- Witness for analyzeAnger_clamped at the parse failure and at anger 7,
which the clamp caps at 5. -/
theorem analyzeAnger_clamped_witness :
    analyzeAngerScore AngerParse.fail = 1
    ∧ analyzeAngerScore (AngerParse.ok (some 7)) = min 5 (max 1 7)
    ∧ 1 ≤ analyzeAngerScore (AngerParse.ok (some 7))
    ∧ analyzeAngerScore (AngerParse.ok (some 7)) ≤ 5 :=
  ⟨(analyzeAnger_clamped AngerParse.fail).1 rfl,
   (analyzeAnger_clamped (AngerParse.ok (some 7))).2.2.1 7 rfl,
   (analyzeAnger_clamped (AngerParse.ok (some 7))).2.2.2.1,
   (analyzeAnger_clamped (AngerParse.ok (some 7))).2.2.2.2⟩

/-- C10: for an authenticated request whose supplied chatId is absent, whose
ownership lookup errs or finds no row, or whose chat belongs to a different
user, the handler creates exactly one fresh chat owned by the requester,
every attempted message write goes to that fresh chat rather than the
supplied one, and when the user-message insert succeeds the request does not
fail: it answers 200 with the fresh chat id and writes both the user message
and the assistant reply under it. -/
theorem fresh_chat_on_unusable_chat_id (inp : HandlerInput) (u f : String)
    (hu : inp.userId = some u)
    (hreset : inp.incomingChatId = none ∨ inp.chatLookup = ChatLookup.err ∨
      inp.chatLookup = ChatLookup.notFound ∨ ∃ o, inp.chatLookup = ChatLookup.found o ∧ o ≠ u)
    (hfresh : inp.newChatId = some f) :
    (chatHandler inp).createdChats = [(f, u)]
    ∧ (∀ mi ∈ (chatHandler inp).messageInserts, mi.chat_id = f)
    ∧ (∀ um, inp.userInsertId = some um →
        (chatHandler inp).status = 200 ∧ (chatHandler inp).chatId = some f
        ∧ (chatHandler inp).userMessageId = some um
        ∧ (chatHandler inp).messageInserts
            = [{ chat_id := f, user_id := u, role := Role.user, content := inp.content },
               { chat_id := f, user_id := u, role := Role.assistant, content := inp.reply }]) := by
  have key : chatHandler inp = chatHandlerRest u f [(f, u)] inp := by
    rcases hreset with h | h | h | ⟨o, ho, hne⟩
    · simp [chatHandler, hu, h, hfresh]
    · cases hic : inp.incomingChatId with
      | none => simp [chatHandler, hu, h, hic, hfresh]
      | some c0 => simp [chatHandler, hu, h, hic, hfresh]
    · cases hic : inp.incomingChatId with
      | none => simp [chatHandler, hu, h, hic, hfresh]
      | some c0 => simp [chatHandler, hu, h, hic, hfresh]
    · cases hic : inp.incomingChatId with
      | none => simp [chatHandler, hu, ho, hne, hic, hfresh]
      | some c0 => simp [chatHandler, hu, ho, hne, hic, hfresh]
  rw [key]
  cases hui : inp.userInsertId with
  | none =>
    refine ⟨by simp [chatHandlerRest, hui], ?_, ?_⟩
    · intro mi hmi
      simp [chatHandlerRest, hui] at hmi
      rw [hmi]
    · intro um hum
      exact Option.noConfusion hum
  | some um0 =>
    refine ⟨by simp [chatHandlerRest, hui], ?_, ?_⟩
    · intro mi hmi
      simp [chatHandlerRest, hui] at hmi
      rcases hmi with rfl | rfl
      · rfl
      · rfl
    · intro um hum
      injection hum with hum'
      subst hum'
      simp [chatHandlerRest, hui]

/-- Witness for fresh_chat_on_unusable_chat_id: a request by alice supplying
a chat owned by bob is answered with a fresh chat owned by alice. -/
theorem fresh_chat_on_unusable_chat_id_witness :
    (chatHandler { userId := some "alice", incomingChatId := some "x", content := "hi", chatLookup := ChatLookup.found "bob", newChatId := some "f-1", userInsertId := some "um-1", reply := "hello", assistantInsertId := some "am-1" }).createdChats = [("f-1", "alice")]
    ∧ (∀ mi ∈ (chatHandler { userId := some "alice", incomingChatId := some "x", content := "hi", chatLookup := ChatLookup.found "bob", newChatId := some "f-1", userInsertId := some "um-1", reply := "hello", assistantInsertId := some "am-1" }).messageInserts, mi.chat_id = "f-1")
    ∧ ((chatHandler { userId := some "alice", incomingChatId := some "x", content := "hi", chatLookup := ChatLookup.found "bob", newChatId := some "f-1", userInsertId := some "um-1", reply := "hello", assistantInsertId := some "am-1" }).status = 200
      ∧ (chatHandler { userId := some "alice", incomingChatId := some "x", content := "hi", chatLookup := ChatLookup.found "bob", newChatId := some "f-1", userInsertId := some "um-1", reply := "hello", assistantInsertId := some "am-1" }).chatId = some "f-1"
      ∧ (chatHandler { userId := some "alice", incomingChatId := some "x", content := "hi", chatLookup := ChatLookup.found "bob", newChatId := some "f-1", userInsertId := some "um-1", reply := "hello", assistantInsertId := some "am-1" }).userMessageId = some "um-1"
      ∧ (chatHandler { userId := some "alice", incomingChatId := some "x", content := "hi", chatLookup := ChatLookup.found "bob", newChatId := some "f-1", userInsertId := some "um-1", reply := "hello", assistantInsertId := some "am-1" }).messageInserts
          = [{ chat_id := "f-1", user_id := "alice", role := Role.user, content := "hi" },
             { chat_id := "f-1", user_id := "alice", role := Role.assistant, content := "hello" }]) :=
  ⟨(fresh_chat_on_unusable_chat_id _ "alice" "f-1" rfl (Or.inr (Or.inr (Or.inr ⟨"bob", rfl, by decide⟩))) rfl).1,
   (fresh_chat_on_unusable_chat_id _ "alice" "f-1" rfl (Or.inr (Or.inr (Or.inr ⟨"bob", rfl, by decide⟩))) rfl).2.1,
   (fresh_chat_on_unusable_chat_id _ "alice" "f-1" rfl (Or.inr (Or.inr (Or.inr ⟨"bob", rfl, by decide⟩))) rfl).2.2 "um-1" rfl⟩

/-- Witness for upgrade_in_place_frame: the swap of temporary id 7 to u-1 at
index 1 and the change-feed upgrade of the same optimistic entry. -/
theorem upgrade_in_place_frame_witness :
    ((swapUserId "7" "u-1" [sysMessage, { id := "7", role := Role.user, content := "hi", analysis := none }]).length = ([sysMessage, { id := "7", role := Role.user, content := "hi", analysis := none }] : List ChatMessage).length ∧ (∀ j, j ≠ 1 → nth (swapUserId "7" "u-1" [sysMessage, { id := "7", role := Role.user, content := "hi", analysis := none }]) j = nth [sysMessage, { id := "7", role := Role.user, content := "hi", analysis := none }] j) ∧ (∀ m0, nth [sysMessage, { id := "7", role := Role.user, content := "hi", analysis := none }] 1 = some m0 → nth (swapUserId "7" "u-1" [sysMessage, { id := "7", role := Role.user, content := "hi", analysis := none }]) 1 = some { m0 with id := "u-1" }))
    ∧
    ((step ({ messages := [sysMessage, { id := "7", role := Role.user, content := "hi", analysis := none }], pending := [], chatId := some "c", sending := true } : EngineState) (Op.feed FeedKind.insert { id := "u-1", role := Role.user, content := "hi", chat_id := "c", analysis := none })).messages.length = ({ messages := [sysMessage, { id := "7", role := Role.user, content := "hi", analysis := none }], pending := [], chatId := some "c", sending := true } : EngineState).messages.length ∧ (∀ j, j ≠ 1 → nth (step ({ messages := [sysMessage, { id := "7", role := Role.user, content := "hi", analysis := none }], pending := [], chatId := some "c", sending := true } : EngineState) (Op.feed FeedKind.insert { id := "u-1", role := Role.user, content := "hi", chat_id := "c", analysis := none })).messages j = nth ({ messages := [sysMessage, { id := "7", role := Role.user, content := "hi", analysis := none }], pending := [], chatId := some "c", sending := true } : EngineState).messages j) ∧ (∀ m0, nth ({ messages := [sysMessage, { id := "7", role := Role.user, content := "hi", analysis := none }], pending := [], chatId := some "c", sending := true } : EngineState).messages 1 = some m0 → ∃ an, nth (step ({ messages := [sysMessage, { id := "7", role := Role.user, content := "hi", analysis := none }], pending := [], chatId := some "c", sending := true } : EngineState) (Op.feed FeedKind.insert { id := "u-1", role := Role.user, content := "hi", chat_id := "c", analysis := none })).messages 1 = some { m0 with id := "u-1", analysis := an } ∧ (lookupPending ({ messages := [sysMessage, { id := "7", role := Role.user, content := "hi", analysis := none }], pending := [], chatId := some "c", sending := true } : EngineState).pending "u-1" = none → an = m0.analysis))) :=
  ⟨(upgrade_in_place_frame [sysMessage, { id := "7", role := Role.user, content := "hi", analysis := none }] "7" "u-1" 1 ({ messages := [sysMessage, { id := "7", role := Role.user, content := "hi", analysis := none }], pending := [], chatId := some "c", sending := true } : EngineState) { id := "u-1", role := Role.user, content := "hi", chat_id := "c", analysis := none } "c").1 (by decide),
   (upgrade_in_place_frame [sysMessage, { id := "7", role := Role.user, content := "hi", analysis := none }] "7" "u-1" 1 ({ messages := [sysMessage, { id := "7", role := Role.user, content := "hi", analysis := none }], pending := [], chatId := some "c", sending := true } : EngineState) { id := "u-1", role := Role.user, content := "hi", chat_id := "c", analysis := none } "c").2 rfl rfl rfl (by decide) (by decide)⟩
